import Mathlib

/-!
Verification of the CV analyzer's extraction and matching pipeline
(`src/app/api/analyze-cv/route.ts`).  Text is modelled as a list of
characters; each JavaScript string routine and each regular expression
of the source is embedded as an executable Lean function over that
representation.  JavaScript numbers that may become `NaN` (the
division inside `analyzeMatch`) are modelled as `Option Nat`, with
`none` standing for `NaN`.
-/

namespace CVAnalyzer

/-- Text, as JavaScript strings: a sequence of characters. -/
abbrev Str := List Char

/-- Whitespace class of JavaScript (`\s` and `String.prototype.trim`):
space, tab, newline, carriage return, vertical tab, form feed and
no-break space. -/
def isWS (c : Char) : Bool :=
  c = ' ' || c = '\t' || c = '\n' || c = '\r' ||
  c = Char.ofNat 11 || c = Char.ofNat 12 || c = Char.ofNat 160

/-- Word character of JavaScript regexes (`\w`): ASCII letter, digit or
underscore. -/
def isWordChar (c : Char) : Bool :=
  (('a' ≤ c && c ≤ 'z') || ('A' ≤ c && c ≤ 'Z') || ('0' ≤ c && c ≤ '9') || c = '_')

/-- ASCII digit (`\d`). -/
def isDigitChar (c : Char) : Bool := ('0' ≤ c && c ≤ '9')

/-- ASCII letter (the class `[a-z]` under the `/i` flag). -/
def isAsciiLetter (c : Char) : Bool :=
  (('a' ≤ c && c ≤ 'z') || ('A' ≤ c && c ≤ 'Z'))

/-- Lower-casing a character as `String.prototype.toLowerCase` does on
the ASCII range (the inputs of interest are ASCII). -/
def lowerChar (c : Char) : Char :=
  if 'A' ≤ c && c ≤ 'Z' then Char.ofNat (c.toNat + 32) else c

/-- Lower-casing a string (`toLowerCase`). -/
def toLowerStr (s : Str) : Str := s.map lowerChar

/-- JavaScript `String.prototype.trim`: drop whitespace at both ends. -/
def trimStr (s : Str) : Str :=
  ((s.dropWhile isWS).reverse.dropWhile isWS).reverse

/-- Test that `s` starts with `p` (JavaScript `startsWith`). -/
def startsWithStr : Str → Str → Bool
  | _, [] => true
  | [], _ :: _ => false
  | c :: s, d :: p => c = d && startsWithStr s p

/-- Substring containment (JavaScript `includes`). -/
def containsStr (pat : Str) : Str → Bool
  | [] => startsWithStr [] pat
  | c :: rest => startsWithStr (c :: rest) pat || containsStr pat rest

/-- JavaScript `text.split("\n")`. -/
def splitLines : Str → List Str
  | [] => [[]]
  | c :: rest =>
    if c = '\n' then [] :: splitLines rest
    else
      match splitLines rest with
      | [] => [[c]]
      | l :: ls => (c :: l) :: ls

/-- Join a list of lines with a separator character (JavaScript
`Array.prototype.join` with a one-character separator). -/
def joinSep (sep : Char) : List Str → Str
  | [] => []
  | [l] => l
  | l :: ls => l ++ sep :: joinSep sep ls

/-- Split on any of the given single characters, keeping empty pieces
(JavaScript `split` with a one-character-class regex). -/
def splitAnyChar (delims : List Char) : Str → List Str
  | [] => [[]]
  | c :: rest =>
    if delims.contains c then [] :: splitAnyChar delims rest
    else
      match splitAnyChar delims rest with
      | [] => [[c]]
      | t :: ts => (c :: t) :: ts

/-- JavaScript `String.prototype.replace` with a plain-string pattern:
remove the first occurrence of `pat` (no-op when `pat` does not occur;
removing the empty pattern keeps the string, as the replacement is
empty in every use in the source). -/
def replaceFirst (s pat : Str) : Str :=
  match s with
  | [] => []
  | c :: rest =>
    if startsWithStr (c :: rest) pat then (c :: rest).drop pat.length
    else c :: replaceFirst rest pat

/-- Join a list of strings with a multi-character separator
(JavaScript `Array.prototype.join`). -/
def joinSepList (sep : Str) : List Str → Str
  | [] => []
  | [l] => l
  | l :: ls => l ++ sep ++ joinSepList sep ls

/-- Insertion-order de-duplication, as iterating a JavaScript `Set`
built from a list does (first occurrence kept). -/
def dedupKeep (seen : List Str) : List Str → List Str
  | [] => []
  | x :: xs =>
    if x ∈ seen then dedupKeep seen xs
    else x :: dedupKeep (x :: seen) xs

/-! Email, phone, and LinkedIn matchers (`parseCV`, lines 142-154). -/

/-- Character class `[\w\.-]` of the email regex. -/
def isEmailChar (c : Char) : Bool := isWordChar c || c = '.' || c = '-'

/-- Domain tail of the email regex `[\w\.-]+@[\w\.-]+\.\w{2,}`: inside
the maximal class run `b` after the `@`, backtracking picks the largest
`k ≥ 1` with `b[k] = '.'` followed by at least two word characters; the
matched tail is `b[0..k]`, the dot and the maximal word run after it.
`k` counts down from `b.length - 1`. -/
def emailTail (b : Str) : Nat → Option Str
  | 0 => none
  | 1 => none
  | k + 2 =>
    if (b.drop (k + 1)).headD ' ' = '.' then
      let w := (b.drop (k + 2)).takeWhile isWordChar
      if 2 ≤ w.length then some (b.take (k + 1) ++ '.' :: w)
      else emailTail b (k + 1)
    else emailTail b (k + 1)

/-- Attempt of the email regex at the start of `s`: the first class run
must be maximal (backtracking cannot shorten it, since a shorter run is
still followed by a class character, never `@`). -/
def matchEmailAt (s : Str) : Option Str :=
  let a := s.takeWhile isEmailChar
  if a.isEmpty then none
  else
    match s.drop a.length with
    | '@' :: rest =>
      let b := rest.takeWhile isEmailChar
      (emailTail b b.length).map (fun t => a ++ '@' :: t)
    | _ => none

/-- Leftmost match of `[\w\.-]+@[\w\.-]+\.\w{2,}` (`text.match`,
line 143). -/
def findEmail : Str → Option Str
  | [] => none
  | c :: rest =>
    match matchEmailAt (c :: rest) with
    | some m => some m
    | none => findEmail rest

/-- Character class `[\d\s\-\(\)]` of the phone regex. -/
def isPhoneChar (c : Char) : Bool :=
  isDigitChar c || isWS c || c = '-' || c = '(' || c = ')'

/-- Cap of the phone regex, `{10,}` then the optional `[)]?`: the run is
maximal, so the character after it is never in the class (hence never a
closing parenthesis); the optional group is kept for fidelity. -/
def phoneRun (s : Str) : Option Str :=
  let run := s.takeWhile isPhoneChar
  if 10 ≤ run.length then
    match s.drop run.length with
    | ')' :: _ => some (run ++ [')'])
    | _ => some run
  else none

/-- Attempt of `[(]?[\d\s\-\(\)]{10,}[)]?` at the start of `s`: if the
optional leading parenthesis is consumed and the run then falls short,
backtracking retries with the parenthesis inside the run. -/
def phoneCore (s : Str) : Option Str :=
  match s with
  | '(' :: r =>
    (match phoneRun r with
     | some m => some ('(' :: m)
     | none => phoneRun ('(' :: r))
  | _ => phoneRun s

/-- Attempt of `[\+]?[(]?[\d\s\-\(\)]{10,}[)]?` at the start of `s`
(dropping the `+` cannot rescue a failed attempt, since `+` is not in
the main class). -/
def matchPhoneAt (s : Str) : Option Str :=
  match s with
  | '+' :: r => (phoneCore r).map (fun m => '+' :: m)
  | _ => phoneCore s

/-- Leftmost match of the phone regex (`text.match`, line 147). -/
def findPhone : Str → Option Str
  | [] => none
  | c :: rest =>
    match matchPhoneAt (c :: rest) with
    | some m => some m
    | none => findPhone rest

/-- Trailing part `linkedin\.com\/in\/[\w\-]+` of the LinkedIn regex,
case-insensitively, returning the matched characters of `s`. -/
def linkedinBare (s : Str) : Option Str :=
  if startsWithStr (toLowerStr s) (("linkedin.com/in/").data) then
    let run := (s.drop 16).takeWhile (fun c => isWordChar c || c = '-')
    if 1 ≤ run.length then some (s.take (16 + run.length)) else none
  else none

/-- Optional `(www\.)?` group: if taking it makes the rest fail, the
bare alternative is retried at the same position. -/
def linkedinCore (s : Str) : Option Str :=
  if startsWithStr (toLowerStr s) (("www.").data) then
    match linkedinBare (s.drop 4) with
    | some m => some (s.take 4 ++ m)
    | none => linkedinBare s
  else linkedinBare s

/-- Attempt of `(?:https?:\/\/)?(?:www\.)?linkedin\.com\/in\/[\w\-]+`
(`/i`) at the start of `s`, greedily preferring the longer protocol. -/
def matchLinkedinAt (s : Str) : Option Str :=
  if startsWithStr (toLowerStr s) (("https://").data) then
    match linkedinCore (s.drop 8) with
    | some m => some (s.take 8 ++ m)
    | none => linkedinCore s
  else if startsWithStr (toLowerStr s) (("http://").data) then
    match linkedinCore (s.drop 7) with
    | some m => some (s.take 7 ++ m)
    | none => linkedinCore s
  else linkedinCore s

/-- Leftmost match of the LinkedIn regex (`text.match`, line 151). -/
def findLinkedin : Str → Option Str
  | [] => none
  | c :: rest =>
    match matchLinkedinAt (c :: rest) with
    | some m => some m
    | none => findLinkedin rest

/-! Section locator (`extractSection`, lines 212-265) and the
references terminator shared by the line-walking extractors. -/

/-- Test of `^(references?|referees?)$` (`/i`) on an already trimmed
line. -/
def refWordLine (t : Str) : Bool :=
  let l := toLowerStr t
  l = (("references").data) || l = (("reference").data) ||
  l = (("referees").data) || l = (("referee").data)

/-- One alternative of `^(references?|referees?)\s*:` — `l` starts with
`p` and, after optional whitespace, a colon follows. -/
def refColonForm (l p : Str) : Bool :=
  startsWithStr l p &&
    (match (l.drop p.length).dropWhile isWS with
     | ':' :: _ => true
     | _ => false)

/-- Test of `^(references?|referees?)\s*:` (`/i`) on a trimmed line. -/
def refColonLine (t : Str) : Bool :=
  let l := toLowerStr t
  refColonForm l (("references").data) || refColonForm l (("reference").data) ||
  refColonForm l (("referees").data) || refColonForm l (("referee").data)

/-- References terminator used by `extractSection`, `extractExperience`
and `extractEducation` (lines 237-242, 351-356, 498-503): the word
test, the colon test, or the two `includes` tests. -/
def refStop (t : Str) : Bool :=
  refWordLine t || refColonLine t ||
  containsStr (("available upon request").data) (toLowerStr t) ||
  containsStr (("references available").data) (toLowerStr t)

/-- References terminator of `extractSkills` (lines 280-286), which adds
an `includes("referees available")` test. -/
def refStopSkills (t : Str) : Bool :=
  refStop t || containsStr (("referees available").data) (toLowerStr t)

/-- Fixed vocabulary of the other-section test
`^(personal|contact|...|volunteer)$` (`/i`, lines 247-250), with the
optional plurals written out (note `hobbies?` matches only `hobbie` and
`hobbies`). -/
def sectionWords : List Str :=
  [("personal").data, ("contact").data, ("summary").data, ("objective").data,
   ("profile").data, ("experience").data, ("work").data, ("employment").data,
   ("education").data, ("skills").data, ("technical").data,
   ("certification").data, ("certifications").data,
   ("project").data, ("projects").data, ("award").data, ("awards").data,
   ("language").data, ("languages").data, ("interest").data, ("interests").data,
   ("hobbie").data, ("hobbies").data, ("publication").data, ("publications").data,
   ("volunteer").data]

/-- Test that a trimmed line is exactly another section header. -/
def isNewSectionLine (t : Str) : Bool := sectionWords.contains (toLowerStr t)

/-- Header test of `extractSection` (lines 222-228): the lowercased
trimmed line is the keyword, starts with `keyword + ":"`, starts with
`keyword + " "`, or contains the keyword while the trimmed line is
shorter than 50 characters. -/
def headerMatch (line kw : Str) : Bool :=
  let ll := trimStr (toLowerStr line)
  ll = kw || startsWithStr ll (kw ++ [':']) || startsWithStr ll (kw ++ [' ']) ||
  (containsStr kw ll && (trimStr line).length < 50)

/-- Scan for the first header line for a keyword, returning the lines
after it (lines 219-228). -/
def findHeaderRest (kw : Str) : List Str → Option (List Str)
  | [] => none
  | l :: rest =>
    if headerMatch l kw then some rest else findHeaderRest kw rest

/-- Accumulate the section body until the references terminator or
another section header under 50 characters (lines 230-257); the
original, untrimmed lines are kept. -/
def collectSection : List Str → List Str
  | [] => []
  | l :: rest =>
    let cur := trimStr l
    if refStop cur then []
    else if isNewSectionLine cur && cur.length < 50 then []
    else l :: collectSection rest

/-- Embedding of `extractSection(text, keywords)` (lines 212-265): the
first keyword with a header line wins; keywords are supplied already
lowercased, as the call sites do. -/
def extractSection (text : Str) : List Str → Str
  | [] => []
  | kw :: kws =>
    match findHeaderRest kw (splitLines text) with
    | some rest => joinSep '\n' (collectSection rest)
    | none => extractSection text kws

/-! Skills extractor (`extractSkills`, lines 267-323). -/

/-- Other-section stop of `extractSkills` (lines 291-297):
`^(interests?|hobbies?|publications?|volunteer|awards?|certifications?)`
is an unanchored-right prefix test, so testing the singular stems
suffices. -/
def skillsSectionStop (t : Str) : Bool :=
  let l := toLowerStr t
  startsWithStr l (("interest").data) || startsWithStr l (("hobbie").data) ||
  startsWithStr l (("publication").data) || startsWithStr l (("volunteer").data) ||
  startsWithStr l (("award").data) || startsWithStr l (("certification").data)

/-- Strip one leading bullet of `[•\-\*\+]` plus whitespace
(line 301). -/
def stripBulletPlus (t : Str) : Str :=
  match t with
  | c :: rest =>
    if c = '•' || c = '-' || c = '*' || c = '+' then rest.dropWhile isWS
    else t
  | [] => []

/-- Strip a leading label `base(s?)[:\-]?\s*` case-insensitively
(the replaces of lines 302-304, whose pieces are all greedy and
optional). -/
def stripLabel (base : Str) (t : Str) : Str :=
  if startsWithStr (toLowerStr t) base then
    let r1 := t.drop base.length
    let r2 := match r1 with
      | c :: rest => if lowerChar c = 's' then rest else r1
      | [] => r1
    let r3 := match r2 with
      | c :: rest => if c = ':' || c = '-' then rest else r2
      | [] => r2
    r3.dropWhile isWS
  else t

/-- Common-word filter `^(and|or|the|with|using|including|available|
upon|request|referees?)$` (`/i`, lines 311-316). -/
def isCommonWord (s : Str) : Bool :=
  let l := toLowerStr s
  [("and").data, ("or").data, ("the").data, ("with").data, ("using").data,
   ("including").data, ("available").data, ("upon").data, ("request").data,
   ("referee").data, ("referees").data].contains l

/-- Skills taken from one trimmed line (lines 299-318): strip bullet and
labels, split by `[,;|•]`, trim, keep fragments of length 2-59 that are
not common words. -/
def lineSkills (t : Str) : List Str :=
  let clean := stripLabel (("tool").data)
    (stripLabel (("technologie").data)
      (stripLabel (("skill").data) (stripBulletPlus t)))
  (((splitAnyChar [',', ';', '|', '•'] clean).map trimStr).filter
      (fun s => 1 < s.length && s.length < 60)).filter
    (fun s => !isCommonWord s)

/-- Line loop of `extractSkills` (lines 273-319), accumulating split
skills until a terminator. -/
def skillsGo : List Str → List Str → List Str
  | [], acc => acc
  | l :: rest, acc =>
    let t := trimStr l
    if t.isEmpty then skillsGo rest acc
    else if refStopSkills t then acc
    else if skillsSectionStop t then acc
    else skillsGo rest (acc ++ lineSkills t)

/-- De-duplicate (insertion order) and cap at 30 (line 322). -/
def skillsOfLines (ls : List Str) : List Str :=
  (dedupKeep [] (skillsGo ls [])).take 30

/-- Embedding of `extractSkills(text)` (lines 267-323). -/
def extractSkills (text : Str) : List Str :=
  if text.isEmpty then [] else skillsOfLines (splitLines text)

/-! Duration matcher (`extractDuration`, lines 621-643). -/

/-- Month alternation `(jan|feb|mar|apr|may|jun|jul|aug|sep|oct|nov|dec)`
as a prefix test on a lowercased string. -/
def monthPre (l : Str) : Bool :=
  [("jan").data, ("feb").data, ("mar").data, ("apr").data, ("may").data,
   ("jun").data, ("jul").data, ("aug").data, ("sep").data, ("oct").data,
   ("nov").data, ("dec").data].any (fun m => startsWithStr l m)

/-- Four ASCII digits at the start of `s` (`\d{4}`). -/
def fourDigits (s : Str) : Bool :=
  ((s.take 4).length = 4) && (s.take 4).all isDigitChar

/-- Consume `(month)[a-z]*\.?\s+\d{4}` at the start of `s`, returning
the consumed length.  All pieces are greedy and backtracking cannot
shorten them (a shortened letter run is still followed by a letter,
which fails both `\.?` and `\s+`). -/
def monthChunk (s : Str) : Option Nat :=
  if monthPre (toLowerStr (s.take 3)) then
    let r1 := s.drop 3
    let letters := r1.takeWhile isAsciiLetter
    let r2 := r1.drop letters.length
    let dot : Nat := match r2 with
      | '.' :: _ => 1
      | _ => 0
    let r3 := r2.drop dot
    let sp := r3.takeWhile isWS
    if 1 ≤ sp.length && fourDigits (r3.drop sp.length) then
      some (3 + letters.length + dot + sp.length + 4)
    else none
  else none

/-- Consume the separator `\s*[-–—to]\s*` — a single character class, so
the word `to` is NOT accepted as a separator, only one of its letters.
Whitespace runs are maximal (the class characters are not whitespace,
so backtracking cannot help). -/
def sepChunk (s : Str) : Option Nat :=
  let w1 := s.takeWhile isWS
  match s.drop w1.length with
  | c :: rest =>
    if c = '-' || c = '–' || c = '—' || c = 't' || c = 'o' then
      some (w1.length + 1 + (rest.takeWhile isWS).length)
    else none
  | [] => none

/-- Consume the literal `present` case-insensitively. -/
def presentChunk (s : Str) : Option Nat :=
  if startsWithStr (toLowerStr s) (("present").data) then some 7 else none

/-- Consume `\d{1,2}\/\d{4}`, trying two leading digits before one. -/
def mdyChunk (s : Str) : Option Nat :=
  match s with
  | a :: b :: '/' :: rest =>
    if isDigitChar a && isDigitChar b && fourDigits rest then some 7
    else if isDigitChar a && b = '/' then none
    else none
  | a :: '/' :: rest =>
    if isDigitChar a && fourDigits rest then some 6 else none
  | _ => none

/-- Word boundary after a match ending in a word character: the next
character is absent or not a word character. -/
def bAfter (s : Str) : Bool :=
  match s with
  | [] => true
  | c :: _ => !isWordChar c

/-- Chain two consumers. -/
def andThenChunk (f g : Str → Option Nat) (s : Str) : Option Nat :=
  match f s with
  | some a =>
    match g (s.drop a) with
    | some b => some (a + b)
    | none => none
  | none => none

/-- Close a pattern with a trailing word boundary. -/
def withBAfter (f : Str → Option Nat) (s : Str) : Option Nat :=
  match f s with
  | some a => if bAfter (s.drop a) then some a else none
  | none => none

/-- Consume `\d{4}`. -/
def fourChunk (s : Str) : Option Nat :=
  if fourDigits s then some 4 else none

/-- Pattern 1: `\b(month)[a-z]*\.?\s+\d{4}\s*[-–—to]\s*(month)[a-z]*\.?\s+\d{4}\b`. -/
def pat1At : Str → Option Nat :=
  withBAfter (andThenChunk monthChunk (andThenChunk sepChunk monthChunk))

/-- Pattern 2: month range to `present`. -/
def pat2At : Str → Option Nat :=
  withBAfter (andThenChunk monthChunk (andThenChunk sepChunk presentChunk))

/-- Pattern 3: `\b\d{4}\s*[-–—to]\s*\d{4}\b`. -/
def pat3At : Str → Option Nat :=
  withBAfter (andThenChunk fourChunk (andThenChunk sepChunk fourChunk))

/-- Pattern 4: `\b\d{4}\s*[-–—to]\s*present\b`. -/
def pat4At : Str → Option Nat :=
  withBAfter (andThenChunk fourChunk (andThenChunk sepChunk presentChunk))

/-- Pattern 5: `\b\d{1,2}\/\d{4}\s*[-–—to]\s*\d{1,2}\/\d{4}\b`. -/
def pat5At : Str → Option Nat :=
  withBAfter (andThenChunk mdyChunk (andThenChunk sepChunk mdyChunk))

/-- Pattern 6: `\b\d{1,2}\/\d{4}\s*[-–—to]\s*present\b`. -/
def pat6At : Str → Option Nat :=
  withBAfter (andThenChunk mdyChunk (andThenChunk sepChunk presentChunk))

/-- Leftmost match of a pattern with a leading word boundary: attempts
are made at positions whose previous character is not a word character
(the patterns all begin with a word character, so other positions
cannot match). -/
def scanPat (pAt : Str → Option Nat) : Str → Bool → Option Str
  | [], _ => none
  | c :: rest, prevWord =>
    if prevWord then scanPat pAt rest (isWordChar c)
    else
      match pAt (c :: rest) with
      | some n => some ((c :: rest).take n)
      | none => scanPat pAt rest (isWordChar c)

/-- Embedding of `extractDuration(text)` (lines 621-643): the six
patterns are tried in order over the whole string; the first pattern
with a match returns its leftmost match. -/
def extractDuration (s : Str) : Str :=
  match scanPat pat1At s false with
  | some m => m
  | none =>
  match scanPat pat2At s false with
  | some m => m
  | none =>
  match scanPat pat3At s false with
  | some m => m
  | none =>
  match scanPat pat4At s false with
  | some m => m
  | none =>
  match scanPat pat5At s false with
  | some m => m
  | none =>
  match scanPat pat6At s false with
  | some m => m
  | none => []

/-- Leftmost match of `\b(19|20)\d{2}\b` (`line.match`, lines 508,
570, 596). -/
def yearHere (s : Str) : Bool :=
  match s with
  | c1 :: c2 :: c3 :: c4 :: rest =>
    ((c1 = '1' && c2 = '9') || (c1 = '2' && c2 = '0')) &&
    isDigitChar c3 && isDigitChar c4 && bAfter rest
  | _ => false

/-- Scan for the year pattern, tracking whether the previous character
was a word character (for the leading `\b`). -/
def findYearGo : Str → Bool → Option Str
  | [], _ => none
  | c :: rest, prevWord =>
    if !prevWord && yearHere (c :: rest) then some ((c :: rest).take 4)
    else findYearGo rest (isWordChar c)

/-- First `\b(19|20)\d{2}\b` match of a line, or `none`. -/
def findYear (s : Str) : Option Str := findYearGo s false

/-! Experience extractor (`extractExperience`, lines 325-475). -/

/-- One experience entry of a `CVData` record. -/
structure ExpEntry where
  title : Str
  company : Str
  duration : Str
  description : Str
deriving DecidableEq, Repr

/-- Strip one leading bullet of `[•\-\*]` plus whitespace (the
description clean-up of lines 376 and 468). -/
def stripBullet3 (t : Str) : Str :=
  match t with
  | c :: rest =>
    if c = '•' || c = '-' || c = '*' then rest.dropWhile isWS
    else t
  | [] => []

/-- Finalize a job: description is the bullet-stripped description
lines joined with spaces and trimmed (lines 375-378). -/
def finishExp (j : ExpEntry) (desc : List Str) : ExpEntry :=
  { j with description := trimStr (joinSep ' ' (desc.map stripBullet3)) }

/-- Title heuristic (lines 364-369) on a trimmed line: length 6-99, not
starting with a bullet. -/
def looksLikeTitle (line : Str) : Bool :=
  5 < line.length && line.length < 100 &&
  !startsWithStr line [ '-' ] && !startsWithStr line [ '•' ] &&
  !startsWithStr line [ '*' ]

/-- Strip one leading separator of `[\-–—|,]` plus whitespace
(`replace(/^[\-–—|,]\s*/, "")`). -/
def stripLeadSep (s : Str) : Str :=
  match s with
  | c :: rest =>
    if c = '-' || c = '–' || c = '—' || c = '|' || c = ',' then
      rest.dropWhile isWS
    else s
  | [] => []

/-- Strip `[\-–—|,]\s*$`: the first position holding a separator
followed only by whitespace up to the end is cut. -/
def stripTrailSep (s : Str) : Str :=
  match s with
  | [] => []
  | c :: rest =>
    if (c = '-' || c = '–' || c = '—' || c = '|' || c = ',') && rest.all isWS
    then []
    else c :: stripTrailSep rest

/-- Separator match of the title/company split regex
`\s*[\|@]\s*|\s*,\s*(?=[A-Z])` at the start of `s`: returns the
consumed length.  The whitespace runs are maximal (class characters
are not whitespace) and the uppercase lookahead consumes nothing. -/
def jobSepAt (s : Str) : Option Nat :=
  let w1 := (s.takeWhile isWS).length
  match s.drop w1 with
  | '|' :: rest => some (w1 + 1 + (rest.takeWhile isWS).length)
  | '@' :: rest => some (w1 + 1 + (rest.takeWhile isWS).length)
  | ',' :: rest =>
    let w2 := (rest.takeWhile isWS).length
    (match rest.drop w2 with
     | c :: _ => if 'A' ≤ c && c ≤ 'Z' then some (w1 + 1 + w2) else none
     | [] => none)
  | _ => none

/-- Fueled splitter for the regex above (JavaScript `split`, line 405);
each step either consumes a separator or one character, so
`s.length + 1` fuel suffices. -/
def splitJobGo (fuel : Nat) (s : Str) (cur : Str) : List Str :=
  match fuel with
  | 0 => [cur.reverse]
  | f + 1 =>
    match s with
    | [] => [cur.reverse]
    | c :: rest =>
      match jobSepAt (c :: rest) with
      | some n => cur.reverse :: splitJobGo f ((c :: rest).drop n) []
      | none => splitJobGo f rest (c :: cur)

/-- Split `remaining` into title/company parts (line 405). -/
def splitJobParts (s : Str) : List Str := splitJobGo (s.length + 1) s []

/-- Start a new job entry from a trigger line (lines 384-458): parse
title/company/duration from the line, then look ahead one or two lines
for a missing duration or company.  Returns the new entry and the
remaining unconsumed lines. -/
def expStart (line dur : Str) (rest : List Str) : ExpEntry × List Str :=
  let j1 : ExpEntry :=
    if dur.isEmpty then
      { title := line, company := [], duration := [], description := [] }
    else
      let remaining := stripTrailSep (stripLeadSep (trimStr (replaceFirst line dur)))
      match splitJobParts remaining with
      | p0 :: p1 :: _ =>
        { title := trimStr p0, company := trimStr p1, duration := dur,
          description := [] }
      | [p0] =>
        if p0.isEmpty then
          { title := [], company := [], duration := dur, description := [] }
        else
          { title := trimStr p0, company := [], duration := dur,
            description := [] }
      | [] => { title := [], company := [], duration := dur, description := [] }
  match rest with
  | [] => (j1, rest)
  | n0 :: rest2 =>
    let nextLine := trimStr n0
    if !nextLine.isEmpty && !startsWithStr nextLine [ '-' ] &&
        !startsWithStr nextLine [ '•' ] then
      let nd := extractDuration nextLine
      if !nd.isEmpty && j1.duration.isEmpty then
        let remaining := stripTrailSep (stripLeadSep (trimStr (replaceFirst nextLine nd)))
        let j2 := { j1 with duration := nd,
                            company := if !remaining.isEmpty && j1.company.isEmpty
                                       then remaining else j1.company }
        (j2, rest2)
      else if j1.company.isEmpty && nextLine.length < 100 then
        let j2 := { j1 with company := nextLine }
        (match rest2 with
         | [] => (j2, rest2)
         | t0 :: rest3 =>
           if j2.duration.isEmpty then
             let td := extractDuration (trimStr t0)
             if !td.isEmpty then ({ j2 with duration := td }, rest3)
             else (j2, rest2)
           else (j2, rest2))
      else (j1, rest)
    else (j1, rest)

/-- End-of-loop save (lines 466-472): a job in progress is kept only if
its title is non-empty. -/
def expFinal (acc : List ExpEntry) (cur : Option ExpEntry) (desc : List Str) :
    List ExpEntry :=
  match cur with
  | some j => if j.title.isEmpty then acc else acc ++ [finishExp j desc]
  | none => acc

/-- Main loop of `extractExperience` (lines 344-463), fueled by the
number of lines (every step consumes at least one line).  On the
in-loop save the `break` at five entries leaves the just-saved job as
the current one, so the end-of-loop save duplicates it; the final
`slice(0, 5)` hides the duplicate. -/
def expGo (fuel : Nat) (lines : List Str) (cur : Option ExpEntry)
    (desc : List Str) (acc : List ExpEntry) : List ExpEntry :=
  match fuel with
  | 0 => expFinal acc cur desc
  | f + 1 =>
    match lines with
    | [] => expFinal acc cur desc
    | l0 :: rest =>
      let line := trimStr l0
      if line.isEmpty then expGo f rest cur desc acc
      else if refStop line then expFinal acc cur desc
      else
        let dur := extractDuration line
        if !dur.isEmpty || looksLikeTitle line then
          match cur with
          | some j =>
            if j.title.isEmpty then
              let s := expStart line dur rest
              expGo f s.2 (some s.1) [] acc
            else
              let acc2 := acc ++ [finishExp j desc]
              if 5 ≤ acc2.length then expFinal acc2 (some (finishExp j desc)) desc
              else
                let s := expStart line dur rest
                expGo f s.2 (some s.1) [] acc2
          | none =>
            let s := expStart line dur rest
            expGo f s.2 (some s.1) [] acc
        else
          match cur with
          | some _ => expGo f rest cur (desc ++ [line]) acc
          | none => expGo f rest cur desc acc

/-- Embedding of `extractExperience(text)` (lines 325-475). -/
def extractExperience (text : Str) : List ExpEntry :=
  if text.isEmpty then []
  else
    let lines := splitLines text
    (expGo (lines.length + 1) lines none [] []).take 5

/-! Education extractor (`extractEducation`, lines 477-619). -/

/-- One education entry of a `CVData` record. -/
structure EduEntry where
  degree : Str
  institution : Str
  year : Str
deriving DecidableEq, Repr

/-- Degree heuristic (lines 511-515) on a trimmed line: length above 5,
not starting with a bullet. -/
def looksLikeDegree (line : Str) : Bool :=
  5 < line.length &&
  !startsWithStr line [ '-' ] && !startsWithStr line [ '•' ] &&
  !startsWithStr line [ '*' ]

/-- Separator match of the education split regex `\s*[\|@,]\s*`. -/
def eduSepAt (s : Str) : Option Nat :=
  let w1 := (s.takeWhile isWS).length
  match s.drop w1 with
  | '|' :: rest => some (w1 + 1 + (rest.takeWhile isWS).length)
  | '@' :: rest => some (w1 + 1 + (rest.takeWhile isWS).length)
  | ',' :: rest => some (w1 + 1 + (rest.takeWhile isWS).length)
  | _ => none

/-- Fueled splitter for `\s*[\|@,]\s*`. -/
def splitEduGo (fuel : Nat) (s : Str) (cur : Str) : List Str :=
  match fuel with
  | 0 => [cur.reverse]
  | f + 1 =>
    match s with
    | [] => [cur.reverse]
    | c :: rest =>
      match eduSepAt (c :: rest) with
      | some n => cur.reverse :: splitEduGo f ((c :: rest).drop n) []
      | none => splitEduGo f rest (c :: cur)

/-- Parts of an education line: split, trim, keep length above 1
(lines 538-541 and 552-555). -/
def eduParts (s : Str) : List Str :=
  ((splitEduGo (s.length + 1) s []).map trimStr).filter (fun p => 1 < p.length)

/-- Start a new education entry from a degree line (lines 524-609),
with the one-or-two-line lookahead for institution and year.  Returns
the new entry and the remaining unconsumed lines. -/
def eduStart (line : Str) (rest : List Str) : EduEntry × List Str :=
  let e1 : EduEntry :=
    match findYear line with
    | some y =>
      let lineWO := trimStr (replaceFirst line y)
      (match eduParts lineWO with
       | p0 :: p1 :: _ => { degree := p0, institution := p1, year := y }
       | [p0] => { degree := p0, institution := [], year := y }
       | [] => { degree := [], institution := [], year := y })
    | none =>
      (match eduParts line with
       | p0 :: p1 :: _ => { degree := p0, institution := p1, year := [] }
       | _ => { degree := line, institution := [], year := [] })
  match rest with
  | [] => (e1, rest)
  | n0 :: rest2 =>
    let nextLine := trimStr n0
    if !nextLine.isEmpty && nextLine.length < 150 then
      let nym := findYear nextLine
      if e1.institution.isEmpty && !startsWithStr nextLine [ '-' ] &&
          !startsWithStr nextLine [ '•' ] then
        match nym with
        | some y2 =>
          if e1.year.isEmpty then
            let remaining := trimStr (replaceFirst nextLine y2)
            let e2 := { e1 with year := y2,
                                institution := if remaining.isEmpty then e1.institution
                                               else stripTrailSep (stripLeadSep remaining) }
            (e2, rest2)
          else (e1, rest)
        | none =>
          let e2 := { e1 with institution := nextLine }
          (match rest2 with
           | [] => (e2, rest2)
           | t0 :: rest3 =>
             if e2.year.isEmpty then
               (match findYear (trimStr t0) with
                | some y3 => ({ e2 with year := y3 }, rest3)
                | none => (e2, rest2))
             else (e2, rest2))
      else
        match nym with
        | some y2 => if e1.year.isEmpty then ({ e1 with year := y2 }, rest2)
                     else (e1, rest)
        | none => (e1, rest)
    else (e1, rest)

/-- End-of-loop save (lines 613-616): kept only with a non-empty
degree. -/
def eduFinal (acc : List EduEntry) (cur : Option EduEntry) : List EduEntry :=
  match cur with
  | some e => if e.degree.isEmpty then acc else acc ++ [e]
  | none => acc

/-- Main loop of `extractEducation` (lines 491-611), fueled by the
number of lines.  The `break` at three entries duplicates the
just-saved entry via the end-of-loop save; `slice(0, 3)` hides it. -/
def eduGo (fuel : Nat) (lines : List Str) (cur : Option EduEntry)
    (acc : List EduEntry) : List EduEntry :=
  match fuel with
  | 0 => eduFinal acc cur
  | f + 1 =>
    match lines with
    | [] => eduFinal acc cur
    | l0 :: rest =>
      let line := trimStr l0
      if line.isEmpty then eduGo f rest cur acc
      else if refStop line then eduFinal acc cur
      else if looksLikeDegree line then
        match cur with
        | some e =>
          if e.degree.isEmpty then
            let s := eduStart line rest
            eduGo f s.2 (some s.1) acc
          else
            let acc2 := acc ++ [e]
            if 3 ≤ acc2.length then eduFinal acc2 (some e)
            else
              let s := eduStart line rest
              eduGo f s.2 (some s.1) acc2
        | none =>
          let s := eduStart line rest
          eduGo f s.2 (some s.1) acc
      else eduGo f rest cur acc

/-- Embedding of `extractEducation(text)` (lines 477-619). -/
def extractEducation (text : Str) : List EduEntry :=
  if text.isEmpty then []
  else
    let lines := splitLines text
    (eduGo (lines.length + 1) lines none []).take 3

/-! CV parser (`parseCV`, lines 139-210) and its data model
(lines 3-24). -/

/-- Personal information block of a `CVData` record. -/
structure PersonalInfo where
  name : Str
  email : Str
  phone : Str
  location : Str
  linkedin : Str
deriving DecidableEq, Repr

/-- The structured CV record (`CVData`, lines 3-24). -/
structure CVData where
  personalInfo : PersonalInfo
  summary : Str
  experience : List ExpEntry
  skills : List Str
  education : List EduEntry
deriving DecidableEq, Repr

/-- Keyword aliases for the skills section (lines 160-164). -/
def skillsKws : List Str :=
  [("skills").data, ("technical skills").data, ("core competencies").data]

/-- Keyword aliases for the experience section (lines 168-173). -/
def expKws : List Str :=
  [("experience").data, ("work experience").data, ("employment").data,
   ("professional experience").data]

/-- Keyword aliases for the education section (lines 177-180). -/
def eduKws : List Str :=
  [("education").data, ("academic background").data]

/-- Keyword aliases for the summary section (lines 184-189). -/
def summaryKws : List Str :=
  [("summary").data, ("objective").data, ("profile").data, ("about").data]

/-- Embedding of `parseCV(text)` (lines 139-210): a total function; a
field with no match is the empty string or the empty list, never
absent. -/
def parseCV (text : Str) : CVData :=
  let lines := (splitLines text).filter (fun l => !(trimStr l).isEmpty)
  let email := (findEmail text).getD []
  let phone := match findPhone text with
    | some m => trimStr m
    | none => []
  let linkedin := (findLinkedin text).getD []
  let name := lines.headD []
  let skills := extractSkills (extractSection text skillsKws)
  let experience := extractExperience (extractSection text expKws)
  let education := extractEducation (extractSection text eduKws)
  let summary := trimStr (joinSep ' '
    (((splitLines (extractSection text summaryKws)).map trimStr).filter
      (fun l => !l.isEmpty)))
  { personalInfo :=
      { name := name, email := email, phone := phone, location := [],
        linkedin := linkedin },
    summary := summary,
    experience := experience,
    skills := skills,
    education := education }

/-- The all-empty record produced for inputs from which nothing can be
extracted. -/
def emptyCVData : CVData :=
  { personalInfo :=
      { name := [], email := [], phone := [], location := [], linkedin := [] },
    summary := [], experience := [], skills := [], education := [] }

/-! ATS scorer (`calculateATSScore`, lines 739-758) and its keyword
vocabulary (lines 34-56). -/

/-- The fixed ATS keyword vocabulary `ATS_KEYWORDS`. -/
def atsKeywords : List Str :=
  [("leadership").data, ("management").data, ("project management").data,
   ("team leadership").data, ("communication").data, ("collaboration").data,
   ("problem solving").data, ("analytical").data, ("strategic").data,
   ("innovative").data, ("results-driven").data, ("data analysis").data,
   ("software development").data, ("programming").data, ("database").data,
   ("cloud").data, ("agile").data, ("scrum").data, ("devops").data,
   ("machine learning").data, ("artificial intelligence").data]

/-- Three ASCII digits at the start of `s`. -/
def threeDigits (s : Str) : Bool :=
  ((s.take 3).length = 3) && (s.take 3).all isDigitChar

/-- Optional `[-.]?` then continue with `k`; existence semantics of
`test` makes trying both alternatives faithful. -/
def optDash (s : Str) (k : Str → Bool) : Bool :=
  (match s with
   | c :: rest => if c = '-' || c = '.' then k rest else false
   | [] => false) || k s

/-- Attempt of `\d{3}[-.]?\d{3}[-.]?\d{4}` at the start of `s`. -/
def atsPhoneAt (s : Str) : Bool :=
  threeDigits s &&
    optDash (s.drop 3) (fun r2 =>
      threeDigits r2 &&
        optDash (r2.drop 3) (fun r4 => fourDigits r4))

/-- Test of the phone-like pattern anywhere in the text (line 745). -/
def atsPhoneTest : Str → Bool
  | [] => false
  | c :: rest => atsPhoneAt (c :: rest) || atsPhoneTest rest

/-- Embedding of `calculateATSScore(text)` (lines 739-758): +10 for
each of the five contact/section checks, +5 per matched keyword capped
at 40, total capped at 90. -/
def calculateATSScore (text : Str) : Nat :=
  let lower := toLowerStr text
  let s1 := if containsStr (("email").data) lower || text.any (fun c => c = '@')
            then 10 else 0
  let s2 := if atsPhoneTest text then 10 else 0
  let s3 := if containsStr (("experience").data) lower then 10 else 0
  let s4 := if containsStr (("education").data) lower then 10 else 0
  let s5 := if containsStr (("skills").data) lower then 10 else 0
  let kw := (atsKeywords.filter (fun k => containsStr k lower)).length
  min (s1 + s2 + s3 + s4 + s5 + min (kw * 5) 40) 90

/-! Keyword matcher (`analyzeMatch` and `tokenizeAndStem`,
lines 645-711).  The `natural` library's tokenizer is embedded as
maximal alphanumeric-run extraction; its Porter stemmer and stopword
list are external library data, so the matcher is parameterised over a
stemming function and a stopword list — every theorem below holds for
any instantiation, and the concrete evaluations only exercise inputs
on which the stemmer is never reached or irrelevant. -/

/-- Token character of `natural`'s `WordTokenizer`: ASCII alphanumeric
or underscore. -/
def isTokChar (c : Char) : Bool := isWordChar c

/-- Maximal token runs, discarding empty tokens (the tokenizer of
line 673-674). -/
def wordTokGo : Str → Str → List Str
  | [], cur => if cur.isEmpty then [] else [cur.reverse]
  | c :: rest, cur =>
    if isTokChar c then wordTokGo rest (c :: cur)
    else if cur.isEmpty then wordTokGo rest []
    else cur.reverse :: wordTokGo rest []

/-- Tokenize a string into words. -/
def wordTokenize (s : Str) : List Str := wordTokGo s []

/-- Embedding of `tokenizeAndStem(text)` (lines 671-680): tokenize,
drop tokens of length at most 2, stem, drop stopwords. -/
def tokenizeAndStem (stem : Str → Str) (stop : List Str) (text : Str) :
    List Str :=
  (((wordTokenize text).filter (fun w => 2 < w.length)).map stem).filter
    (fun w => !stop.contains w)

/-- The CV word set (`new Set(cvWords)`, line 650), in insertion
order. -/
def cvSetOf (stem : Str → Str) (stop : List Str) (cv : Str) : List Str :=
  dedupKeep [] (tokenizeAndStem stem stop (toLowerStr cv))

/-- The job-description word set (line 651). -/
def jdSetOf (stem : Str → Str) (stop : List Str) (jd : Str) : List Str :=
  dedupKeep [] (tokenizeAndStem stem stop (toLowerStr jd))

/-- Size of `cvWordSet ∩ jdWordSet` (line 653). -/
def interSize (stem : Str → Str) (stop : List Str) (cv jd : Str) : Nat :=
  ((cvSetOf stem stop cv).filter
    (fun x => (jdSetOf stem stop jd).contains x)).length

/-- JavaScript `Math.round` of the exact ratio `100 * i / j` (half
rounds up), defined for `j > 0`. -/
def jsRound100 (i j : Nat) : Nat := (200 * i + j) / (2 * j)

/-- Uncapped score of `analyzeMatch` (line 654):
`Math.round((intersection.size / jdWordSet.size) * 100)`.  When the
job-description set is empty the JavaScript division is `0 / 0 = NaN`
(the intersection is necessarily empty then), which `Math.round`
propagates; `none` models that `NaN`.  This value feeds the suggestion
generator. -/
def analyzeScoreRaw (stem : Str → Str) (stop : List Str) (cv jd : Str) :
    Option Nat :=
  let j := (jdSetOf stem stop jd).length
  if j = 0 then none
  else some (jsRound100 (interSize stem stop cv jd) j)

/-- Returned score of `analyzeMatch` (line 665): `Math.min(score, 95)`,
which propagates `NaN`. -/
def analyzeScore (stem : Str → Str) (stop : List Str) (cv jd : Str) :
    Option Nat :=
  (analyzeScoreRaw stem stop cv jd).map (fun n => min n 95)

/-- Missing keywords (lines 657-660): job-description stems absent from
the CV set, of length above 3, first ten in discovery order. -/
def missingKeywordsOf (stem : Str → Str) (stop : List Str) (cv jd : Str) :
    List Str :=
  (((jdSetOf stem stop jd).filter
      (fun w => !(cvSetOf stem stop cv).contains w)).filter
    (fun w => 3 < w.length)).take 10

/-- Suggestion templates of `generateMatchSuggestions` (lines 682-711);
with a `NaN` score both `< 30` and `< 60` compare false, so the
"excellent" branch is taken. -/
def genMatchSuggestions (score : Option Nat) (mk : List Str) : List Str :=
  let lt : Nat → Bool := fun b =>
    match score with
    | some n => n < b
    | none => false
  let base :=
    if lt 30 then
      [("Your CV has low keyword overlap with the job description. Consider adding more relevant technical skills and experience.").data]
    else if lt 60 then
      [("Good foundation, but you could improve keyword matching by incorporating more job-specific terms.").data]
    else
      [("Excellent keyword alignment! Your CV matches well with the job requirements.").data]
  if mk.isEmpty then base
  else base ++
    [(("Consider adding these keywords: ").data) ++ joinSepList ((", ").data) (mk.take 5)]

/-- General suggestions when no job description is given
(`generateGeneralSuggestions`, lines 713-737); its `text` parameter in
the source is never read, so it is omitted here. -/
def generateGeneralSuggestions (cvData : CVData) : List Str :=
  (if cvData.personalInfo.email.isEmpty
   then [("Add a professional email address").data] else []) ++
  (if cvData.personalInfo.phone.isEmpty
   then [("Include your phone number").data] else []) ++
  (if cvData.skills.length < 5
   then [("Add more relevant technical skills").data] else []) ++
  (if cvData.summary.isEmpty
   then [("Include a professional summary or objective statement").data] else []) ++
  (if cvData.experience.length < 2
   then [("Add more work experience details").data] else [])

/-! Response shape of the analyze-cv endpoint (`POST`, lines 104-129):
the JSON value serialized by `NextResponse.json(result)`. -/

/-- JSON-like values for the serialized response; a number field is an
`Option Nat` whose `none` is JavaScript `NaN` (serialized as
`null`). -/
inductive JVal where
  | jstr : Str → JVal
  | jnum : Option Nat → JVal
  | jarr : List JVal → JVal
  | jobj : List (Str × JVal) → JVal

/-- Serialization of an experience entry. -/
def expToJVal (e : ExpEntry) : JVal :=
  JVal.jobj
    [(("title").data, JVal.jstr e.title),
     (("company").data, JVal.jstr e.company),
     (("duration").data, JVal.jstr e.duration),
     (("description").data, JVal.jstr e.description)]

/-- Serialization of an education entry. -/
def eduToJVal (e : EduEntry) : JVal :=
  JVal.jobj
    [(("degree").data, JVal.jstr e.degree),
     (("institution").data, JVal.jstr e.institution),
     (("year").data, JVal.jstr e.year)]

/-- Serialization of a `CVData` record, with the field order of the
interface (lines 3-24). -/
def cvDataToJVal (d : CVData) : JVal :=
  JVal.jobj
    [(("personalInfo").data, JVal.jobj
        [(("name").data, JVal.jstr d.personalInfo.name),
         (("email").data, JVal.jstr d.personalInfo.email),
         (("phone").data, JVal.jstr d.personalInfo.phone),
         (("location").data, JVal.jstr d.personalInfo.location),
         (("linkedin").data, JVal.jstr d.personalInfo.linkedin)]),
     (("summary").data, JVal.jstr d.summary),
     (("experience").data, JVal.jarr (d.experience.map expToJVal)),
     (("skills").data, JVal.jarr (d.skills.map JVal.jstr)),
     (("education").data, JVal.jarr (d.education.map eduToJVal))]

/-- The `result` object of `POST` (lines 104-127): its four fields, in
construction order, with the job-description branch of lines 111-120
deciding the values.  There is no `matchingKeywords` field in the
`AnalysisResult` interface (lines 26-31) or in the object. -/
def analyzeCvResult (stem : Str → Str) (stop : List Str) (cv jd : Str) :
    List (Str × JVal) :=
  let hasJd := !(trimStr jd).isEmpty
  let ms : Option Nat :=
    if hasJd then analyzeScore stem stop cv jd
    else some (calculateATSScore cv)
  let sg : List Str :=
    if hasJd then
      genMatchSuggestions (analyzeScoreRaw stem stop cv jd)
        (missingKeywordsOf stem stop cv jd)
    else generateGeneralSuggestions (parseCV cv)
  let mk : List Str := if hasJd then missingKeywordsOf stem stop cv jd else []
  [(("matchScore").data, JVal.jnum ms),
   (("extractedData").data, cvDataToJVal (parseCV cv)),
   (("suggestions").data, JVal.jarr (sg.map JVal.jstr)),
   (("missingKeywords").data, JVal.jarr (mk.map JVal.jstr))]

/-- Look up a field of a serialized object by key. -/
def lookupKey (k : Str) : List (Str × JVal) → Option JVal
  | [] => none
  | (k2, v) :: rest => if k2 = k then some v else lookupKey k rest

/-! Helper lemmas. -/

theorem dedupKeep_nodup (l : List Str) : ∀ seen,
    (dedupKeep seen l).Nodup ∧ ∀ x ∈ dedupKeep seen l, x ∉ seen := by
  induction l with
  | nil => intro seen; simp [dedupKeep]
  | cons x xs ih =>
    intro seen
    by_cases hx : x ∈ seen
    · simpa [dedupKeep, hx] using ih seen
    · have hrec := ih (x :: seen)
      refine ⟨?_, ?_⟩
      · simp only [dedupKeep, hx, if_false]
        refine List.nodup_cons.mpr ⟨?_, hrec.1⟩
        intro hmem
        have h2 := hrec.2 x hmem
        simp at h2
      · intro y hy
        simp only [dedupKeep, hx, if_false] at hy
        rcases List.mem_cons.mp hy with h | h
        · subst h; exact hx
        · have h2 := hrec.2 y h
          intro hmem
          exact h2 (List.mem_cons_of_mem x hmem)

theorem length_take_le {α : Type} (n : Nat) (l : List α) : (l.take n).length ≤ n := by
  simp [List.length_take]

theorem finishExp_title (j : ExpEntry) (desc : List Str) :
    (finishExp j desc).title = j.title := rfl

theorem expFinal_titles (acc : List ExpEntry) (cur : Option ExpEntry)
    (desc : List Str) (h : ∀ e ∈ acc, e.title ≠ []) :
    ∀ e ∈ expFinal acc cur desc, e.title ≠ [] := by
  cases cur with
  | none => exact h
  | some j =>
    simp only [expFinal]
    split
    · exact h
    · intro e he
      rcases List.mem_append.mp he with h1 | h1
      · exact h e h1
      · have : e = finishExp j desc := by simpa using h1
        subst this
        rw [finishExp_title]
        intro hnil
        simp [hnil] at *

theorem expGo_titles (fuel : Nat) : ∀ lines cur desc acc,
    (∀ e ∈ acc, e.title ≠ []) →
    ∀ e ∈ expGo fuel lines cur desc acc, e.title ≠ [] := by
  induction fuel with
  | zero => intro lines cur desc acc h; exact expFinal_titles acc cur desc h
  | succ f ih =>
    intro lines cur desc acc h
    cases lines with
    | nil => exact expFinal_titles acc cur desc h
    | cons l0 rest =>
      simp only [expGo]
      split
      · exact ih rest cur desc acc h
      · split
        · exact expFinal_titles acc cur desc h
        · split
          · -- a new entry is triggered
            split
            · -- cur = some j
              rename_i j
              split
              · exact ih _ _ [] acc h
              · -- previous job saved
                rename_i htitle
                have h2 : ∀ e ∈ acc ++ [finishExp j desc], e.title ≠ [] := by
                  intro e he
                  rcases List.mem_append.mp he with h1 | h1
                  · exact h e h1
                  · have : e = finishExp j desc := by simpa using h1
                    subst this
                    rw [finishExp_title]
                    intro hnil
                    simp [hnil] at htitle
                split
                · exact expFinal_titles _ _ _ h2
                · exact ih _ _ [] _ h2
            · exact ih _ _ [] acc h
          · split
            · exact ih rest _ _ acc h
            · exact ih rest _ desc acc h

/-! Claim theorems. -/

/-- C3: for every input text, the experience list returned by
`extractExperience` has length at most 5 and the education list
returned by `extractEducation` has length at most 3 (both functions end
in `slice(0, n)`, which also hides the duplicate entry the in-loop
`break` leaves behind). -/
theorem extractExperience_extractEducation_caps (text : Str) :
    (extractExperience text).length ≤ 5 ∧
    (extractEducation text).length ≤ 3 := by
  constructor
  · unfold extractExperience
    split
    · simp
    · exact length_take_le 5 _
  · unfold extractEducation
    split
    · simp
    · exact length_take_le 3 _

/-- C4: for every input text, the skills list returned by
`extractSkills` contains no duplicate entries and has length at most 30
(the accumulated skills pass through a `Set` and `slice(0, 30)`). -/
theorem extractSkills_nodup_cap (text : Str) :
    (extractSkills text).Nodup ∧ (extractSkills text).length ≤ 30 := by
  unfold extractSkills
  split
  · simp
  · constructor
    · exact List.Nodup.sublist (List.take_sublist 30 _) (dedupKeep_nodup _ []).1
    · exact length_take_le 30 _

/-- C8: for every input text, the job-description-independent ATS score
`calculateATSScore` is a natural number of at most 90: +10 for each of
the five contact/section checks, +5 per matched buzzword capped at 40,
all capped at 90 by the final `Math.min`. -/
theorem calculateATSScore_range (text : Str) : calculateATSScore text ≤ 90 := by
  unfold calculateATSScore
  exact Nat.min_le_right _ 90

/-- C10: every experience entry returned by `extractExperience` has a
non-empty title — an in-progress entry whose title ended up empty (for
example one started by a line consisting only of a duration, with no
remainder for the title) is discarded by the `currentJob.title`
truthiness guards, both at the start of a new entry and at end of
input. -/
theorem extractExperience_titles_nonempty (text : Str) :
    (extractExperience text).all (fun e => !e.title.isEmpty) = true := by
  rw [List.all_eq_true]
  intro e he
  have hne : e.title ≠ [] := by
    unfold extractExperience at he
    split at he
    · simp at he
    · exact expGo_titles _ _ none [] [] (by simp) e (List.mem_of_mem_take he)
  simp [List.isEmpty_iff, hne]

/-- The concrete scenario-A input of the specification. -/
def scenarioA : Str :=
  ("John Smith\njohn@x.com\n555-123-4567\n\nSKILLS\nPython, Go, SQL\n\nEXPERIENCE\nSoftware Engineer\nAcme Corp\n2020 - 2022\nBuilt things.\n\nEDUCATION\nBS Computer Science\nMIT\n2019").data

/-- C6 counterexample: on the scenario-A input `parseCV` returns TWO
experience entries, not exactly one — the trailing description line
"Built things." has no leading bullet, passes the `looksLikeTitle`
heuristic (length 6-99, no bullet), and therefore starts a second
entry.  This refutes the claim's "exactly one experience entry". -/
theorem parseCV_scenarioA_two_experience_entries :
    (parseCV scenarioA).experience.length = 2 := by decide

/-- C6 amended: on the scenario-A input `parseCV` extracts
`email = "john@x.com"`, `skills = ["Python", "Go", "SQL"]`, a first
experience entry with title "Software Engineer", company "Acme Corp"
and duration "2020 - 2022", one education entry with year "2019" — and
a second experience entry `{title := "Built things."}` produced from
the description line, since only bullet-led lines are treated as
description. -/
theorem parseCV_scenarioA_full :
    parseCV scenarioA =
      { personalInfo :=
          { name := ("John Smith").data, email := ("john@x.com").data,
            phone := ("555-123-4567").data, location := [], linkedin := [] },
        summary := [],
        experience :=
          [{ title := ("Software Engineer").data, company := ("Acme Corp").data,
             duration := ("2020 - 2022").data, description := [] },
           { title := ("Built things.").data, company := [], duration := [],
             description := [] }],
        skills := [("Python").data, ("Go").data, ("SQL").data],
        education :=
          [{ degree := ("BS Computer Science").data,
             institution := ("MIT").data, year := ("2019").data }] } := by
  decide

/-- C7: the separator of the date-range patterns is the character CLASS
`[-–—to]`, which matches exactly one character — so the two-letter word
"to" is NOT accepted as a separator and `extractDuration` returns the
empty string on "2020 to 2023", while single-character separators (a
hyphen, or even a bare "t") do match.  The code's own character class
includes `t` and `o`, showing the intent to accept the word "to"; the
claim (and the specification) state that intent, which the regex fails
to implement. -/
theorem extractDuration_to_separator_bug :
    extractDuration (("2020 to 2023").data) = [] ∧
    extractDuration (("2020 - 2023").data) = ("2020 - 2023").data ∧
    extractDuration (("2020 t 2023").data) = ("2020 t 2023").data := by
  refine ⟨by decide, by decide, by decide⟩

/-- C2: with the non-empty job description "ab" every token is dropped
by the length-above-2 filter, the job-description stem set is empty,
and the score of `analyzeMatch` is `0 / 0 = NaN` (modelled `none`) —
not the integer 0 the claim requires.  The stemmer and stopword list
are irrelevant here (no token survives to reach them), so the identity
stemmer and an empty stopword list exercise the failing division
faithfully. -/
theorem analyzeScore_empty_jdset_NaN :
    analyzeScore (fun s => s) [] (("python").data) (("ab").data) = none ∧
    (trimStr (("ab").data)).isEmpty = false ∧
    lookupKey (("matchScore").data)
        (analyzeCvResult (fun s => s) [] (("python").data) (("ab").data)) =
      some (JVal.jnum none) := by
  refine ⟨rfl, rfl, rfl⟩

/-- C5 counterexample: in `extractExperience`, a references terminator
line reached through the one-or-two-line lookahead of a just-started
entry is consumed as the entry's COMPANY, and the line after the
terminator supplies the entry's duration — so lines at and after the
terminator do contribute to the extracted output, refuting the claim
for the experience extractor. -/
theorem extractExperience_references_leak :
    extractExperience
        (("Software Engineer\nReferences\nAcme 2020 - 2023").data) =
      [{ title := ("Software Engineer").data, company := ("References").data,
         duration := ("2020 - 2023").data, description := [] }] := by
  decide

theorem refStopSkills_trim_ne_empty (refLine : Str)
    (h : refStopSkills (trimStr refLine) = true) :
    (trimStr refLine).isEmpty = false := by
  cases hh : (trimStr refLine).isEmpty
  · rfl
  · exfalso
    have hnil : trimStr refLine = [] := by simpa using hh
    rw [hnil] at h
    exact absurd h (by decide)

theorem skillsGo_stops (refLine : Str)
    (h : refStopSkills (trimStr refLine) = true) :
    ∀ pre post acc, skillsGo (pre ++ refLine :: post) acc = skillsGo pre acc := by
  intro pre
  induction pre with
  | nil =>
    intro post acc
    simp [skillsGo, refStopSkills_trim_ne_empty refLine h, h]
  | cons l pre' ih =>
    intro post acc
    simp only [List.cons_append, skillsGo]
    split
    · exact ih post acc
    · split
      · rfl
      · split
        · rfl
        · exact ih post _

theorem refStop_trim_ne_empty (refLine : Str)
    (h : refStop (trimStr refLine) = true) :
    (trimStr refLine).isEmpty = false := by
  cases hh : (trimStr refLine).isEmpty
  · rfl
  · exfalso
    have hnil : trimStr refLine = [] := by simpa using hh
    rw [hnil] at h
    exact absurd h (by decide)

theorem collectSection_stops (refLine : Str)
    (h : refStop (trimStr refLine) = true) :
    ∀ pre post, collectSection (pre ++ refLine :: post) = collectSection pre := by
  intro pre
  induction pre with
  | nil =>
    intro post
    simp [collectSection, h]
  | cons l pre' ih =>
    intro post
    simp only [List.cons_append, collectSection]
    split
    · rfl
    · split
      · rfl
      · exact congrArg (fun x => l :: x) (ih post)

theorem splitLines_ne_nil (s : Str) : splitLines s ≠ [] := by
  induction s with
  | nil => simp [splitLines]
  | cons c rest ih =>
    simp only [splitLines]
    split
    · simp
    · split
      · simp
      · simp

/-- C5: once a references terminator line is reached by the section
locator's body collector or by the skills extractor's line walk,
nothing at or after that line contributes to the output: for any
decomposition `pre ++ terminator :: post` the collected section body
and the extracted skills equal those of `pre` alone.  (The experience
and education extractors do NOT satisfy this property — see the
counterexample — because their lookahead consumes the terminator line
as a company/institution without testing it.) -/
theorem references_terminator_stops_sections :
    (∀ refLine, refStop (trimStr refLine) = true →
      ∀ pre post, collectSection (pre ++ refLine :: post) = collectSection pre) ∧
    (∀ refLine, refStopSkills (trimStr refLine) = true →
      ∀ pre post acc, skillsGo (pre ++ refLine :: post) acc = skillsGo pre acc) ∧
    (∀ text pre post refLine, splitLines text = pre ++ refLine :: post →
      refStopSkills (trimStr refLine) = true →
      extractSkills text = skillsOfLines pre) := by
  refine ⟨fun r h pre post => collectSection_stops r h pre post,
         fun r h pre post acc => skillsGo_stops r h pre post acc, ?_⟩
  intro text pre post refLine hsplit h
  unfold extractSkills
  split
  · rename_i hempty
    have htext : text = [] := by simpa using hempty
    subst htext
    have hsplit2 : ([] : Str) :: [] = pre ++ refLine :: post := hsplit
    cases pre with
    | nil =>
      injection hsplit2 with h1 h2
      rw [← h1] at h
      exact absurd h (by decide)
    | cons x pre' =>
      injection hsplit2 with h1 h2
      exact absurd h2.symm (by simp)
  · rw [hsplit]
    unfold skillsOfLines
    rw [skillsGo_stops refLine h pre post []]

/-- C5 witness: instantiating the terminator property on a concrete
skills body whose second line is "References". -/
theorem references_terminator_stops_sections_witness :
    extractSkills (("Python, Go\nReferences\nRust, C#").data) =
      skillsOfLines [("Python, Go").data] :=
  references_terminator_stops_sections.2.2
    (("Python, Go\nReferences\nRust, C#").data)
    [("Python, Go").data] [("Rust, C#").data] (("References").data)
    (by decide) (by decide)

/-- C9 counterexample: the response object of the analyze-cv endpoint
has no `matchingKeywords` field — `AnalysisResult` (lines 26-31)
carries only `matchScore`, `extractedData`, `suggestions` and
`missingKeywords`. -/
theorem analyzeCvResult_no_matchingKeywords :
    lookupKey (("matchingKeywords").data)
        (analyzeCvResult (fun s => s) [] (("python").data)
          (("python sql docker").data)) = none := rfl

/-- C9 amended: for every stemmer, stopword list, CV text and non-empty
job description, the response holds exactly the fields `matchScore`,
`extractedData`, `suggestions` and `missingKeywords` (no
`matchingKeywords`); `missingKeywords` has at most 10 entries, each a
job-description stem of length above 3 absent from the CV stem set,
listed in discovery order (a sublist of the job-description set). -/
theorem analyzeCvResult_shape (stem : Str → Str) (stop : List Str)
    (cv jd : Str) (h : trimStr jd ≠ []) :
    (analyzeCvResult stem stop cv jd).map Prod.fst =
      [("matchScore").data, ("extractedData").data, ("suggestions").data,
       ("missingKeywords").data] ∧
    lookupKey (("matchingKeywords").data) (analyzeCvResult stem stop cv jd) =
      none ∧
    (missingKeywordsOf stem stop cv jd).length ≤ 10 ∧
    (∀ w ∈ missingKeywordsOf stem stop cv jd,
      3 < w.length ∧ w ∈ jdSetOf stem stop jd ∧
      (cvSetOf stem stop cv).contains w = false) ∧
    (missingKeywordsOf stem stop cv jd).Sublist (jdSetOf stem stop jd) := by
  refine ⟨rfl, rfl, length_take_le 10 _, ?_, ?_⟩
  · intro w hw
    have h1 := List.mem_of_mem_take hw
    rw [List.mem_filter] at h1
    have h2 := h1.1
    rw [List.mem_filter] at h2
    refine ⟨by simpa using h1.2, h2.1, ?_⟩
    have h3 := h2.2
    simp only [Bool.not_eq_true'] at h3
    exact h3
  · exact (List.take_sublist _ _).trans
      ((List.filter_sublist _).trans (List.filter_sublist _))

/-- C9 witness: the shape theorem at the identity stemmer, empty
stopword list, CV "python" and job description "python sql docker". -/
theorem analyzeCvResult_shape_witness :
    (analyzeCvResult (fun s => s) [] (("python").data)
        (("python sql docker").data)).map Prod.fst =
      [("matchScore").data, ("extractedData").data, ("suggestions").data,
       ("missingKeywords").data] ∧
    (missingKeywordsOf (fun s => s) [] (("python").data)
        (("python sql docker").data)).length ≤ 10 ∧
    (missingKeywordsOf (fun s => s) [] (("python").data)
        (("python sql docker").data)).Sublist
      (jdSetOf (fun s => s) [] (("python sql docker").data)) :=
  have hs := analyzeCvResult_shape (fun s => s) [] (("python").data)
    (("python sql docker").data) (by decide)
  ⟨hs.1, hs.2.2.1, hs.2.2.2.2⟩

/-! Whitespace-only inputs (claim C1). -/

theorem ws_enum (c : Char) (h : isWS c = true) :
    c = ' ' ∨ c = '\t' ∨ c = '\n' ∨ c = '\r' ∨
    c = Char.ofNat 11 ∨ c = Char.ofNat 12 ∨ c = Char.ofNat 160 := by
  simp [isWS] at h
  tauto

theorem ws_char_facts (c : Char) (h : isWS c = true) :
    isEmailChar c = false ∧ c ≠ '+' ∧ c ≠ '(' ∧ c ≠ ')' ∧ lowerChar c = c ∧
    c ≠ 'h' ∧ c ≠ 'w' ∧ c ≠ 'l' := by
  rcases ws_enum c h with h1 | h1 | h1 | h1 | h1 | h1 | h1 <;> subst h1 <;> decide

theorem trimStr_ws (s : Str) (h : ∀ c ∈ s, isWS c = true) : trimStr s = [] := by
  have h1 : s.dropWhile isWS = [] := by
    rw [List.dropWhile_eq_nil_iff]
    exact fun x hx => h x hx
  simp [trimStr, h1]

theorem toLowerStr_ws (s : Str) (h : ∀ c ∈ s, isWS c = true) :
    ∀ c ∈ toLowerStr s, isWS c = true := by
  intro c hc
  rcases List.mem_map.mp hc with ⟨d, hd, hlow⟩
  have hfacts := ws_char_facts d (h d hd)
  rw [← hlow, hfacts.2.2.2.2.1]
  exact h d hd

theorem splitLines_ws (s : Str) (h : ∀ c ∈ s, isWS c = true) :
    ∀ l ∈ splitLines s, ∀ c ∈ l, isWS c = true := by
  induction s with
  | nil =>
    intro l hl
    simp only [splitLines] at hl
    simp at hl
    subst hl
    simp
  | cons c rest ih =>
    have hc := h c (List.mem_cons_self c rest)
    have hrest : ∀ d ∈ rest, isWS d = true :=
      fun d hd => h d (List.mem_cons_of_mem c hd)
    intro l hl
    simp only [splitLines] at hl
    split at hl
    · rcases List.mem_cons.mp hl with h1 | h1
      · subst h1; simp
      · exact ih hrest l h1
    · rename_i hcne
      cases hsp : splitLines rest with
      | nil => exact absurd hsp (splitLines_ne_nil rest)
      | cons l0 ls =>
        rw [hsp] at hl
        rcases List.mem_cons.mp hl with h1 | h1
        · subst h1
          intro d hd
          rcases List.mem_cons.mp hd with h2 | h2
          · subst h2; exact hc
          · exact ih hrest l0 (hsp ▸ List.mem_cons_self l0 ls) d h2
        · exact ih hrest l (hsp ▸ List.mem_cons_of_mem l0 h1)

theorem findEmail_ws (s : Str) (h : ∀ c ∈ s, isWS c = true) :
    findEmail s = none := by
  induction s with
  | nil => rfl
  | cons c rest ih =>
    have hc := (ws_char_facts c (h c (List.mem_cons_self c rest))).1
    have hmatch : matchEmailAt (c :: rest) = none := by
      simp [matchEmailAt, List.takeWhile_cons, hc]
    simp only [findEmail, hmatch]
    exact ih (fun d hd => h d (List.mem_cons_of_mem c hd))

theorem takeWhile_ws (s : Str) (h : ∀ c ∈ s, isWS c = true) (p : Char → Bool) :
    ∀ c ∈ s.takeWhile p, isWS c = true :=
  fun c hc => h c ((List.takeWhile_sublist p).mem hc)

theorem findPhone_ws (s : Str) (h : ∀ c ∈ s, isWS c = true) :
    findPhone s = none ∨
    ∃ m, findPhone s = some m ∧ ∀ c ∈ m, isWS c = true := by
  induction s with
  | nil => exact Or.inl rfl
  | cons c rest ih =>
    have hfacts := ws_char_facts c (h c (List.mem_cons_self c rest))
    have hrest : ∀ d ∈ rest, isWS d = true :=
      fun d hd => h d (List.mem_cons_of_mem c hd)
    have hrun : ∀ d ∈ (c :: rest).takeWhile isPhoneChar, isWS d = true :=
      takeWhile_ws (c :: rest) h isPhoneChar
    have hPR : phoneRun (c :: rest) = none ∨
        ∃ m, phoneRun (c :: rest) = some m ∧ ∀ d ∈ m, isWS d = true := by
      by_cases hlen : 10 ≤ ((c :: rest).takeWhile isPhoneChar).length
      · cases hdrop : (c :: rest).drop ((c :: rest).takeWhile isPhoneChar).length with
        | nil =>
          refine Or.inr ⟨_, ?_, hrun⟩
          simp [phoneRun, hlen, hdrop]
        | cons d ds =>
          have hd : isWS d = true := by
            have hmem : d ∈ (c :: rest) := by
              have hin : d ∈ (c :: rest).drop
                  ((c :: rest).takeWhile isPhoneChar).length :=
                hdrop ▸ List.mem_cons_self d ds
              exact (List.drop_sublist _ _).mem hin
            exact h d hmem
          have hdne : d ≠ ')' := (ws_char_facts d hd).2.2.2.1
          refine Or.inr ⟨_, ?_, hrun⟩
          simp only [phoneRun, hlen, if_true, hdrop]
          split
          · rename_i heq
            injection heq with h1 h2
            exact absurd h1 hdne
          · rfl
      · exact Or.inl (by simp [phoneRun, hlen])
    have hCore : phoneCore (c :: rest) = phoneRun (c :: rest) := by
      unfold phoneCore
      split
      · rename_i heq
        injection heq with h1 h2
        exact absurd h1 hfacts.2.2.1
      · rfl
    have hAt : matchPhoneAt (c :: rest) = phoneRun (c :: rest) := by
      unfold matchPhoneAt
      rw [← hCore]
      split
      · rename_i heq
        injection heq with h1 h2
        exact absurd h1 hfacts.2.1
      · rfl
    rcases hPR with hnone | ⟨m, hm, hmws⟩
    · have : findPhone (c :: rest) = findPhone rest := by
        simp only [findPhone, hAt, hnone]
      rw [this]
      exact ih hrest
    · exact Or.inr ⟨m, by simp only [findPhone, hAt, hm], hmws⟩

theorem findLinkedin_ws (s : Str) (h : ∀ c ∈ s, isWS c = true) :
    findLinkedin s = none := by
  induction s with
  | nil => rfl
  | cons c rest ih =>
    have hfacts := ws_char_facts c (h c (List.mem_cons_self c rest))
    have hlow : lowerChar c = c := hfacts.2.2.2.2.1
    have hBare : linkedinBare (c :: rest) = none := by
      unfold linkedinBare
      have : startsWithStr (toLowerStr (c :: rest)) (("linkedin.com/in/").data) =
          false := by
        show startsWithStr (lowerChar c :: toLowerStr rest) ('l' :: _) = false
        simp [startsWithStr, hlow, hfacts.2.2.2.2.2.2.2]
      simp [this]
    have hCore : linkedinCore (c :: rest) = none := by
      unfold linkedinCore
      have : startsWithStr (toLowerStr (c :: rest)) (("www.").data) = false := by
        show startsWithStr (lowerChar c :: toLowerStr rest) ('w' :: _) = false
        simp [startsWithStr, hlow, hfacts.2.2.2.2.2.2.1]
      simp [this, hBare]
    have hAt : matchLinkedinAt (c :: rest) = none := by
      unfold matchLinkedinAt
      have h1 : startsWithStr (toLowerStr (c :: rest)) (("https://").data) =
          false := by
        show startsWithStr (lowerChar c :: toLowerStr rest) ('h' :: _) = false
        simp [startsWithStr, hlow, hfacts.2.2.2.2.2.1]
      have h2 : startsWithStr (toLowerStr (c :: rest)) (("http://").data) =
          false := by
        show startsWithStr (lowerChar c :: toLowerStr rest) ('h' :: _) = false
        simp [startsWithStr, hlow, hfacts.2.2.2.2.2.1]
      simp [h1, h2, hCore]
    simp only [findLinkedin, hAt]
    exact ih (fun d hd => h d (List.mem_cons_of_mem c hd))

theorem startsWithStr_nil (p : Str) (hp : p ≠ []) :
    startsWithStr [] p = false := by
  cases p with
  | nil => exact absurd rfl hp
  | cons d p' => rfl

theorem headerMatch_ws (line kw : Str) (hl : ∀ c ∈ line, isWS c = true)
    (hkw : kw ≠ []) : headerMatch line kw = false := by
  have hll : trimStr (toLowerStr line) = [] :=
    trimStr_ws (toLowerStr line) (toLowerStr_ws line hl)
  have htr : trimStr line = [] := trimStr_ws line hl
  unfold headerMatch
  rw [hll]
  have h1 : (([] : Str) = kw) = False := by
    simp [Ne.symm hkw]
  have h2 : startsWithStr [] (kw ++ [':']) = false :=
    startsWithStr_nil _ (by simp)
  have h3 : startsWithStr [] (kw ++ [' ']) = false :=
    startsWithStr_nil _ (by simp)
  have h4 : containsStr kw [] = false := by
    unfold containsStr
    exact startsWithStr_nil kw hkw
  simp [h1, h2, h3, h4]

theorem findHeaderRest_ws (kw : Str) (hkw : kw ≠ []) :
    ∀ lines : List Str, (∀ l ∈ lines, ∀ c ∈ l, isWS c = true) →
    findHeaderRest kw lines = none := by
  intro lines
  induction lines with
  | nil => intro _; rfl
  | cons l rest ih =>
    intro h
    have hm : headerMatch l kw = false :=
      headerMatch_ws l kw (h l (List.mem_cons_self l rest)) hkw
    simp only [findHeaderRest, hm]
    simp
    exact ih (fun l2 hl2 => h l2 (List.mem_cons_of_mem l hl2))

theorem extractSection_ws (text : Str) (h : ∀ c ∈ text, isWS c = true) :
    ∀ kws : List Str, (∀ kw ∈ kws, kw ≠ []) →
    extractSection text kws = [] := by
  intro kws
  induction kws with
  | nil => intro _; rfl
  | cons kw rest ih =>
    intro hk
    have hnone : findHeaderRest kw (splitLines text) = none :=
      findHeaderRest_ws kw (hk kw (List.mem_cons_self kw rest))
        (splitLines text) (splitLines_ws text h)
    simp only [extractSection, hnone]
    exact ih (fun k hk2 => hk k (List.mem_cons_of_mem kw hk2))

/-- C1: `parseCV` is a total function into `CVData` (so it cannot throw
and every field is present and well-typed by construction: strings are
`Str`, arrays are lists, never null), and on every whitespace-only
input — the empty string included — it returns the record whose string
fields are all empty and whose array fields are all empty. -/
theorem parseCV_whitespace (text : Str) (h : ∀ c ∈ text, isWS c = true) :
    parseCV text = emptyCVData := by
  have hsecS : extractSection text skillsKws = [] :=
    extractSection_ws text h skillsKws (by decide)
  have hsecE : extractSection text expKws = [] :=
    extractSection_ws text h expKws (by decide)
  have hsecD : extractSection text eduKws = [] :=
    extractSection_ws text h eduKws (by decide)
  have hsecU : extractSection text summaryKws = [] :=
    extractSection_ws text h summaryKws (by decide)
  have hmail : findEmail text = none := findEmail_ws text h
  have hlink : findLinkedin text = none := findLinkedin_ws text h
  have hlines : (splitLines text).filter (fun l => !(trimStr l).isEmpty) = [] := by
    rw [List.filter_eq_nil_iff]
    intro l hl
    have ht : trimStr l = [] := trimStr_ws l (splitLines_ws text h l hl)
    simp [ht]
  rcases findPhone_ws text h with hpho | ⟨m, hpho, hmws⟩
  · unfold parseCV
    rw [hsecS, hsecE, hsecD, hsecU, hmail, hlink, hlines, hpho]
    rfl
  · have htm : trimStr m = [] := trimStr_ws m hmws
    unfold parseCV
    rw [hsecS, hsecE, hsecD, hsecU, hmail, hlink, hlines, hpho]
    simp only [htm]
    rfl

/-- C1 witness: a concrete whitespace-only input. -/
theorem parseCV_whitespace_witness :
    parseCV (("  \t\n \n   ").data) = emptyCVData :=
  parseCV_whitespace (("  \t\n \n   ").data) (by decide)

end CVAnalyzer
